import Mathlib

/-!
Shallow embedding of the fraud-detection notebook `starter_code-2.ipynb`.

The notebook is a linear pandas/sklearn pipeline:
load -> feature_engineering -> SMOTE -> train_test_split -> StandardScaler
-> GradientBoostingClassifier -> submission file.

Cell values are embedded by `Val`: rational numbers stand for the finite
floats/ints of the table, `nan`/`inf`/`ninf` model the IEEE special values
that pandas produces on unguarded divisions (pandas raises no error there),
and `str` models object (string) cells.  A DataFrame is an association list
of named columns, matching pandas' column-oriented storage; missing-column
accesses produce the pandas `KeyError`, modelled by `PyErr.keyError`.
-/

/-- Cell value of a pandas column: a finite number (exact rational in place of
the float), an IEEE special value, or a string (object dtype). -/
inductive Val where
  | str : String → Val
  | num : ℚ → Val
  | nan : Val
  | inf : Val
  | ninf : Val
deriving DecidableEq

/-- A value is finite iff it is an ordinary number (not NaN/±inf, not a string). -/
def Val.isFinite : Val → Bool
  | .num _ => true
  | _ => false

/-- Numeric content of a cell; non-numeric cells read as 0 (used only where the
pipeline guarantees numeric data, e.g. the 0/1 label column). -/
def Val.toQ : Val → ℚ
  | .num q => q
  | _ => 0

/-- Addition with IEEE special-value propagation (string operands, which would
be a pandas TypeError and are unreachable on the columns the notebook adds,
are mapped to NaN). -/
def Val.add : Val → Val → Val
  | .num a, .num b => .num (a + b)
  | .num _, .inf => .inf
  | .inf, .num _ => .inf
  | .num _, .ninf => .ninf
  | .ninf, .num _ => .ninf
  | .inf, .inf => .inf
  | .ninf, .ninf => .ninf
  | _, _ => .nan

/-- Subtraction with IEEE special-value propagation. -/
def Val.sub : Val → Val → Val
  | .num a, .num b => .num (a - b)
  | .num _, .inf => .ninf
  | .inf, .num _ => .inf
  | .num _, .ninf => .inf
  | .ninf, .num _ => .ninf
  | .inf, .ninf => .inf
  | .ninf, .inf => .ninf
  | _, _ => .nan

/-- Multiplication with IEEE special-value propagation. -/
def Val.mul : Val → Val → Val
  | .num a, .num b => .num (a * b)
  | .num a, .inf => if 0 < a then .inf else if a < 0 then .ninf else .nan
  | .inf, .num a => if 0 < a then .inf else if a < 0 then .ninf else .nan
  | .num a, .ninf => if 0 < a then .ninf else if a < 0 then .inf else .nan
  | .ninf, .num a => if 0 < a then .ninf else if a < 0 then .inf else .nan
  | .inf, .inf => .inf
  | .ninf, .ninf => .inf
  | .inf, .ninf => .ninf
  | .ninf, .inf => .ninf
  | _, _ => .nan

/-- Division with IEEE special-value semantics: a nonzero finite number divided
by zero gives ±inf, zero divided by zero gives NaN — exactly what pandas
produces (it raises no error on division by zero). -/
def Val.div : Val → Val → Val
  | .num a, .num b =>
      if b = 0 then (if a = 0 then .nan else if 0 < a then .inf else .ninf)
      else .num (a / b)
  | .num _, .inf => .num 0
  | .num _, .ninf => .num 0
  | .inf, .num a => if 0 ≤ a then .inf else .ninf
  | .ninf, .num a => if 0 ≤ a then .ninf else .inf
  | _, _ => .nan

/-- Rational approximation of `np.sqrt` (floor square root of the scaled
numerator); exact on perfect squares, which is all the concrete tables in this
file use.  No claim in this development depends on the value of a square root
of a non-square. -/
def ratSqrt (q : ℚ) : ℚ := (Nat.sqrt (q.num.toNat * q.den) : ℚ) / (q.den : ℚ)

/-- Square root on cell values (`np.sqrt`): NaN on negative input, like numpy. -/
def Val.sqrtv : Val → Val
  | .num a => if a < 0 then .nan else .num (ratSqrt a)
  | .inf => .inf
  | _ => .nan

/-- Python exception raised by a pipeline step.  `keyError` is the pandas
`KeyError` raised by a missing column label; `valueError` models a failed
`pd.to_datetime` parse; `typeError` models subscripting `None`. -/
inductive PyErr where
  | keyError : String → PyErr
  | valueError : String → PyErr
  | typeError : String → PyErr
deriving DecidableEq

/-- Name of the Python exception class of an error (as `type(e).__name__`). -/
def PyErr.className : PyErr → String
  | .keyError _ => "KeyError"
  | .valueError _ => "ValueError"
  | .typeError _ => "TypeError"

/-- Split a character list on a separator character (the character-level body of
`str.split(sep)` used by the datetime parsers below). -/
def splitOnChar (sep : Char) : List Char → List (List Char)
  | [] => [[]]
  | c :: cs =>
      let rest := splitOnChar sep cs
      if c = sep then [] :: rest
      else match rest with
        | [] => [[c]]
        | g :: gs => (c :: g) :: gs

/-- Parse a nonempty all-digit character list as a natural number. -/
def digitsToNat? (l : List Char) : Option ℕ :=
  if l = [] then none
  else if l.all Char.isDigit then
    some (l.foldl (fun acc c => acc * 10 + (c.toNat - 48)) 0)
  else none

/-- Parse of `pd.to_datetime(x, format := time form HH:MM:SS)` followed by
`.dt.hour`: a malformed value makes `to_datetime` raise, modelled by `none`. -/
def parseTimeHour? (v : Val) : Option ℕ :=
  match v with
  | .str s =>
      match splitOnChar ':' s.toList with
      | [hs, ms, ss] =>
          match digitsToNat? hs, digitsToNat? ms, digitsToNat? ss with
          | some h, some m, some sec =>
              if h < 24 && m < 60 && sec < 60 then some h else none
          | _, _, _ => none
      | _ => none
  | _ => none

/-- Parse of an ISO `YYYY-MM-DD` date cell, as `pd.to_datetime` infers it for
the `trans_date` and `dob` columns; gives (year, month, day). -/
def parseDate? (v : Val) : Option (ℕ × ℕ × ℕ) :=
  match v with
  | .str s =>
      match splitOnChar '-' s.toList with
      | [ys, ms, ds] =>
          match digitsToNat? ys, digitsToNat? ms, digitsToNat? ds with
          | some y, some m, some d =>
              if 1 ≤ m && m ≤ 12 && 1 ≤ d && d ≤ 31 then some (y, m, d) else none
          | _, _, _ => none
      | _ => none
  | _ => none

/-- Day of week of a Gregorian date with Monday = 0, as pandas `.dt.dayofweek`
returns it (Zeller's congruence, shifted from its Saturday = 0 convention). -/
def dayOfWeekOf (y m d : ℕ) : ℕ :=
  let yy := if m ≤ 2 then y - 1 else y
  let mm := if m ≤ 2 then m + 12 else m
  let k := yy % 100
  let j := yy / 100
  ((d + 13 * (mm + 1) / 5 + k + k / 4 + j / 4 + 5 * j) % 7 + 5) % 7

/-- Map a parser over a whole column, as the vectorised `pd.to_datetime` does;
any unparseable cell aborts the call with a ValueError. -/
def colMapE (f : Val → Option Val) (vs : List Val) : Except PyErr (List Val) :=
  match vs.mapM f with
  | some ws => .ok ws
  | none => .error (.valueError "could not parse column")

/-- A pandas DataFrame: an ordered association list of named columns, matching
pandas' column-oriented storage.  All claims are stated over this model. -/
structure DF where
  cols : List (String × List Val)
deriving DecidableEq

/-- Column lookup (`df[c]` read position): data of the first column named `c`. -/
def lookupCol : List (String × List Val) → String → Option (List Val)
  | [], _ => none
  | p :: ps, c => if p.1 = c then some p.2 else lookupCol ps c

/-- Optional read of a column by label. -/
def DF.getCol? (df : DF) (c : String) : Option (List Val) := lookupCol df.cols c

/-- Read of `df[c]`: raises the pandas `KeyError c` when the label is absent. -/
def DF.getCol (df : DF) (c : String) : Except PyErr (List Val) :=
  match df.getCol? c with
  | some vs => .ok vs
  | none => .error (.keyError c)

/-- Column labels of the frame, in order. -/
def DF.names (df : DF) : List String := df.cols.map Prod.fst

/-- Row count of the frame (length of its first column; the pipeline only ever
builds frames whose columns share one length). -/
def DF.nrows (df : DF) : ℕ :=
  match df.cols with
  | [] => 0
  | p :: _ => p.2.length

/-- Body of column assignment: replace the column in place when the label
exists, append it at the end otherwise — pandas `df[c] = vs` semantics. -/
def setColAux (c : String) (vs : List Val) : List (String × List Val) → List (String × List Val)
  | [] => [(c, vs)]
  | p :: ps => if p.1 = c then (c, vs) :: ps else p :: setColAux c vs ps

/-- Column assignment `df[c] = vs`. -/
def DF.setCol (df : DF) (c : String) (vs : List Val) : DF := ⟨setColAux c vs df.cols⟩

/-- `df.drop(columns := cs)` with the default `errors` handling: raises
`KeyError` naming the first label not found, otherwise removes the columns. -/
def DF.drop (df : DF) (cs : List String) : Except PyErr DF :=
  match cs.find? (fun c => !(df.names.contains c)) with
  | some c => .error (.keyError c)
  | none => .ok ⟨df.cols.filter (fun p => !(cs.contains p.1))⟩

/-- Column-subset selection `df[cs]`: raises `KeyError` naming the first label
not in the index, otherwise yields the columns in the requested order. -/
def DF.select (df : DF) (cs : List String) : Except PyErr DF :=
  match cs.find? (fun c => !(df.names.contains c)) with
  | some c => .error (.keyError c)
  | none => .ok ⟨cs.map (fun c => (c, (df.getCol? c).getD []))⟩

/-- Row-major view of the frame (used to feed the classifier one row at a
time). -/
def DF.rows (df : DF) : List (List Val) :=
  (List.range df.nrows).map (fun i => df.cols.map (fun p => p.2.getD i .nan))

instance {ε α : Type} [DecidableEq ε] [DecidableEq α] : DecidableEq (Except ε α)
  | .error e, .error f =>
      if h : e = f then .isTrue (h ▸ rfl)
      else .isFalse (fun hc => h (Except.error.inj hc))
  | .error _, .ok _ => .isFalse (fun hc => Except.noConfusion hc)
  | .ok _, .error _ => .isFalse (fun hc => Except.noConfusion hc)
  | .ok x, .ok y =>
      if h : x = y then .isTrue (h ▸ rfl)
      else .isFalse (fun hc => h (Except.ok.inj hc))

/-- In-group history of row `j`: the indices `i ≤ j` whose `cc_num` equals that
of row `j`, most recent first, truncated to the trailing window of size 3 —
the window `rolling(window := 3)` looks at inside `groupby('cc_num')`. -/
def rollingWindow (ccs : List Val) (j : ℕ) : List ℕ :=
  (((List.range (j + 1)).filter (fun i => decide (ccs.getD i .nan = ccs.getD j .nan))).reverse).take 3

/-- The `trans_count` column:
`df.groupby(cc_num)[unix_time].transform(rolling(window := 3).count())`,
counting the non-NaN `unix_time` cells in the trailing window of each row's
cardholder.  Windows shorter than 3 are counted as-is (`min_periods = 0`), the
rolling-count default under which the notebook's recorded run completed — with
window-sized `min_periods` the first two rows of every cardholder would be NaN
and the downstream oversampler, which rejects NaN input, would have raised. -/
def transCountCol (ccs uts : List Val) : List Val :=
  (List.range uts.length).map (fun j =>
    .num ((rollingWindow ccs j).countP (fun i => !(uts.getD i .nan = .nan))))

/-- Per-cardholder mean amount at row `j`:
`df.groupby(cc_num)[amt].transform(mean)` — the mean of the non-NaN `amt`
cells over all rows of row `j`'s cardholder (pandas mean skips NaN and yields
NaN when no value remains). -/
def groupMeanAt (ccs amts : List Val) (j : ℕ) : Val :=
  let idxs := (List.range amts.length).filter
    (fun i => decide (ccs.getD i .nan = ccs.getD j .nan))
  let nvs := idxs.filterMap (fun i =>
    match amts.getD i .nan with
    | .num q => some q
    | _ => none)
  if nvs.length = 0 then .nan else .num (nvs.sum / (nvs.length : ℚ))

/-- The `amt_ratio` column: `df[amt] / df.groupby(cc_num)[amt].transform(mean)`.
The division is unguarded: a zero group mean produces NaN/±inf cells. -/
def amtRatioCol (ccs amts : List Val) : List Val :=
  (List.range amts.length).map (fun j =>
    Val.div (amts.getD j .nan) (groupMeanAt ccs amts j))

/-- The `amt_per_capita` column: `df[amt] / (df[city_pop] + 1)`. -/
def amtPerCapitaCol (amts cps : List Val) : List Val :=
  List.zipWith (fun a p => Val.div a (Val.add p (.num 1))) amts cps

/-- The `distance` column:
`np.sqrt((lat - merch_lat)^2 + (long - merch_long)^2)`. -/
def distanceCol (lats mlats lons mlons : List Val) : List Val :=
  (List.zipWith Val.add
    ((List.zipWith Val.sub lats mlats).map (fun v => Val.mul v v))
    ((List.zipWith Val.sub lons mlons).map (fun v => Val.mul v v))).map Val.sqrtv

/-- The categorical columns the notebook encodes (`cat_cols` in the source). -/
def cat_cols : List String := ["category", "gender", "job", "state", "city", "merchant"]

/-- Strict lexicographic order on character lists by code point — the order in
which Python compares the category strings. -/
def charListLt : List Char → List Char → Bool
  | [], [] => false
  | [], _ :: _ => true
  | _ :: _, [] => false
  | c :: cs, d :: ds =>
      if c.toNat < d.toNat then true
      else if d.toNat < c.toNat then false
      else charListLt cs ds

/-- Total order used to sort category values: numbers before strings,
numerically and lexicographically inside each kind (cat columns hold only
strings in this dataset; `np.unique` sorts them lexicographically). -/
def Val.leB : Val → Val → Bool
  | .num a, .num b => decide (a ≤ b)
  | .str s, .str t => !(charListLt t.data s.data)
  | .num _, _ => true
  | _, .num _ => false
  | .str _, _ => true
  | _, .str _ => false
  | _, _ => true

/-- Fitted category list of one column, as `OrdinalEncoder.fit` computes it:
the sorted distinct values seen in the training column. -/
def fitCats (col : List Val) : List Val :=
  List.insertionSort (fun a b => Val.leB a b = true) col.dedup

/-- Position of a value in a fitted category list. -/
def idxOfVal? (v : Val) : List Val → Option ℕ
  | [] => none
  | w :: ws => if w = v then some 0 else (idxOfVal? v ws).map (· + 1)

/-- Ordinal code of one cell under a fitted category list.  The encoder was
constructed with `handle_unknown = use_encoded_value, unknown_value = -1`, so
a value absent from the fitted categories encodes to the sentinel -1 instead
of raising. -/
def encodeVal (cats : List Val) (v : Val) : Val :=
  match idxOfVal? v cats with
  | some i => .num (i : ℚ)
  | none => .num (-1)

/-- The fitted state of `sklearn.preprocessing.OrdinalEncoder`: one sorted
category list per encoded column, aligned with `cat_cols`. -/
structure OrdinalEncoder where
  categories_ : List (List Val)
deriving DecidableEq

/-- `OrdinalEncoder.fit` on the six categorical columns. -/
def fitOrdinal (colsData : List (List Val)) : OrdinalEncoder :=
  ⟨colsData.map fitCats⟩

/-- `OrdinalEncoder.transform`: encode each column against its fitted category
list (read-only: the encoder itself is not changed). -/
def applyOrdinal (enc : OrdinalEncoder) (colsData : List (List Val)) : List (List Val) :=
  List.zipWith (fun cats col => col.map (encodeVal cats)) enc.categories_ colsData

/-- The `encoders` dictionary threaded between the train and test calls of
`feature_engineering`. -/
structure Encoders where
  ordinal_encoder : OrdinalEncoder
deriving DecidableEq

/-- Assign a list of columns pairwise (`df[cat_cols] = encoded`). -/
def setCols (df : DF) : List String → List (List Val) → DF
  | c :: cs, d :: ds => setCols (df.setCol c d) cs ds
  | _, _ => df

/-- The derived-feature block of `feature_engineering`, in source order:

  df[hour]           = to_datetime(df[trans_time]).dt.hour
  df[day_of_week]    = to_datetime(df[trans_date]).dt.dayofweek
  df[age]            = Timestamp(now).year - to_datetime(df[dob]).dt.year
  df[distance]       = sqrt((lat - merch_lat)^2 + (long - merch_long)^2)
  df[amt_per_capita] = df[amt] / (df[city_pop] + 1)
  df[trans_count]    = groupby(cc_num)[unix_time].transform(rolling(3).count())
  df[amt_ratio]      = df[amt] / groupby(cc_num)[amt].transform(mean)

`nowYear` is the wall-clock year `pd.Timestamp('now').year` read at call
time.  Each column read raises `KeyError` when the label is absent. -/
def addDerived (df : DF) (nowYear : ℤ) : Except PyErr DF := do
  let tt ← df.getCol "trans_time"
  let hourCol ← colMapE (fun v => (parseTimeHour? v).map (fun h => .num (h : ℚ))) tt
  let df := df.setCol "hour" hourCol
  let td ← df.getCol "trans_date"
  let dowCol ← colMapE
    (fun v => (parseDate? v).map (fun p => .num (dayOfWeekOf p.1 p.2.1 p.2.2 : ℚ))) td
  let df := df.setCol "day_of_week" dowCol
  let db ← df.getCol "dob"
  let ageCol ← colMapE
    (fun v => (parseDate? v).map (fun p => .num ((nowYear - (p.1 : ℤ) : ℤ) : ℚ))) db
  let df := df.setCol "age" ageCol
  let lats ← df.getCol "lat"
  let mlats ← df.getCol "merch_lat"
  let lons ← df.getCol "long"
  let mlons ← df.getCol "merch_long"
  let df := df.setCol "distance" (distanceCol lats mlats lons mlons)
  let amts ← df.getCol "amt"
  let cps ← df.getCol "city_pop"
  let df := df.setCol "amt_per_capita" (amtPerCapitaCol amts cps)
  let ccs ← df.getCol "cc_num"
  let uts ← df.getCol "unix_time"
  let df := df.setCol "trans_count" (transCountCol ccs uts)
  let amts2 ← df.getCol "amt"
  let ccs2 ← df.getCol "cc_num"
  let df := df.setCol "amt_ratio" (amtRatioCol ccs2 amts2)
  .ok df

/-- The categorical-encoding block of `feature_engineering`: with
`fit_encoders = True` a fresh `OrdinalEncoder` is fitted on `df[cat_cols]`
and `fit_transform` applied; otherwise the supplied fitted encoder is applied
with `transform` only (subscripting a missing `encoders` dict is the Python
TypeError on `None`). -/
def encodeStep (df : DF) (encoders : Option Encoders) (fit_encoders : Bool) :
    Except PyErr (DF × Encoders) := do
  if fit_encoders then
    let sub ← df.select cat_cols
    let enc := fitOrdinal (sub.cols.map Prod.snd)
    let encoded := applyOrdinal enc (sub.cols.map Prod.snd)
    .ok (setCols df cat_cols encoded, ⟨enc⟩)
  else
    match encoders with
    | none => .error (.typeError "NoneType is not subscriptable")
    | some encs =>
        let sub ← df.select cat_cols
        let encoded := applyOrdinal encs.ordinal_encoder (sub.cols.map Prod.snd)
        .ok (setCols df cat_cols encoded, encs)

/-- The raw source columns dropped at the end of `feature_engineering`. -/
def dropped_cols : List String :=
  ["trans_date", "trans_time", "dob", "first", "last", "street"]

/-- `feature_engineering(df, encoders, fit_encoders)` of the notebook, with the
ambient clock year made explicit.  Returns the transformed frame and the
encoder dictionary (freshly fitted when `fit_encoders`, the one passed in
otherwise). -/
def feature_engineering (df : DF) (encoders : Option Encoders) (fit_encoders : Bool)
    (nowYear : ℤ) : Except PyErr (DF × Encoders) := do
  let d1 ← addDerived df nowYear
  let (d2, encs) ← encodeStep d1 encoders fit_encoders
  let d3 ← d2.drop dropped_cols
  .ok (d3, encs)

/-- State of the caller's DataFrame object after `feature_engineering(df, ...)`
returns.  The notebook's function assigns columns on its argument and calls
`drop(..., inplace := True)`, so on success the caller's object holds exactly
the returned frame.  (The partially mutated state left behind when the call
raises midway is not modelled; the frame is returned unchanged then.) -/
def dfAfterCall (df : DF) (encoders : Option Encoders) (fit_encoders : Bool)
    (nowYear : ℤ) : DF :=
  match feature_engineering df encoders fit_encoders nowYear with
  | .ok p => p.1
  | .error _ => df

/-- Random draws consumed while synthesising one SMOTE sample: the minority
sample to start from, which of its neighbours to pair it with, and the
interpolation factor. -/
structure SmoteChoice where
  base : ℕ
  neighbor : ℕ
  lam : ℚ
deriving DecidableEq

/-- Occurrences of a label value in a label column. -/
def countLabel (y : List ℚ) (q : ℚ) : ℕ := y.countP (fun v => decide (v = q))

/-- Modelled from the spec: the class balancer `SMOTE(random_state = 42)
.fit_resample(X, y)` of the external imblearn library (its code is not part of
this repository).  Per the spec it synthesises minority-class samples by
interpolating between a minority sample and a randomly chosen minority
neighbour in feature space until both classes have equal support; the seeded
randomness is abstracted into the `picks` choice stream.  Feature columns are
extended column-wise with the interpolated cells; the label column is extended
with the minority label. -/
def smote_fit_resample (X : DF) (y : List ℚ) (picks : ℕ → SmoteChoice) : DF × List ℚ :=
  let n1 := countLabel y 1
  let n0 := countLabel y 0
  let minLab : ℚ := if n1 < n0 then 1 else 0
  let diff : ℕ := max n1 n0 - min n1 n0
  let minIdx := (List.range y.length).filter (fun i => decide (y.getD i 0 = minLab))
  match minIdx with
  | [] => (X, y)
  | i0 :: _ =>
      let pairs := (List.range diff).map (fun k =>
        let c := picks k
        (minIdx.getD (c.base % minIdx.length) i0,
         minIdx.getD (c.neighbor % minIdx.length) i0,
         c.lam))
      let X' : DF := ⟨X.cols.map (fun p =>
        (p.1, p.2 ++ pairs.map (fun t =>
          let a := p.2.getD t.1 .nan
          let b := p.2.getD t.2.1 .nan
          Val.add a (Val.mul (.num t.2.2) (Val.sub b a)))))⟩
      (X', y ++ List.replicate diff minLab)

/-- Rows of a frame selected by index list (helper for the split). -/
def dfTakeRows (X : DF) (idx : List ℕ) : DF :=
  ⟨X.cols.map (fun p => (p.1, idx.map (fun i => p.2.getD i .nan)))⟩

/-- Modelled from the spec: the external
`train_test_split(X, y, test_size = 0.2, random_state = 42, stratify = y)`.
Per the spec it partitions the rows 80/20 stratified on the label with a fixed
seed; the seeded permutation is abstracted to row order, the held-out fifth
(floor, per class) being taken from the end of each class. -/
def train_test_split (X : DF) (y : List ℚ) : DF × DF × List ℚ × List ℚ :=
  let idx1 := (List.range y.length).filter (fun i => decide (y.getD i 0 = 1))
  let idx0 := (List.range y.length).filter (fun i => decide (¬ y.getD i 0 = 1))
  let tr1 := idx1.take (idx1.length - idx1.length / 5)
  let va1 := idx1.drop (idx1.length - idx1.length / 5)
  let tr0 := idx0.take (idx0.length - idx0.length / 5)
  let va0 := idx0.drop (idx0.length - idx0.length / 5)
  let trIdx := tr0 ++ tr1
  let vaIdx := va0 ++ va1
  (dfTakeRows X trIdx, dfTakeRows X vaIdx,
   trIdx.map (fun i => y.getD i 0), vaIdx.map (fun i => y.getD i 0))

/-- The numeric feature list scaled by the notebook (`numeric_features`). -/
def numeric_features : List String :=
  ["amt", "lat", "long", "merch_lat", "merch_long", "city_pop",
   "amt_per_capita", "age", "hour", "distance"]

/-- Mean of a column (cells read numerically; the pipeline scales only numeric
columns). -/
def colMeanQ (vs : List Val) : ℚ := (vs.map Val.toQ).sum / (vs.length : ℚ)

/-- Population variance of a column, as `StandardScaler` computes it. -/
def colVarQ (vs : List Val) : ℚ :=
  ((vs.map Val.toQ).map (fun q => (q - colMeanQ vs) ^ 2)).sum / (vs.length : ℚ)

/-- `scale_` of a fitted `StandardScaler` column: the standard deviation, with
zero variance mapped to scale 1 (sklearn's `_handle_zeros_in_scale`). -/
def scaleOf (var : ℚ) : ℚ := if var = 0 then 1 else ratSqrt var

/-- The fitted state of `sklearn.preprocessing.StandardScaler` on the scaled
columns: per column its `mean_` and `scale_`. -/
structure StandardScaler where
  params : List (String × ℚ × ℚ)
deriving DecidableEq

/-- `StandardScaler.fit` on the numeric feature columns of a frame. -/
def fitStandardScaler (X : DF) (cs : List String) : StandardScaler :=
  ⟨cs.map (fun c =>
    let col := (X.getCol? c).getD []
    (c, colMeanQ col, scaleOf (colVarQ col)))⟩

/-- `StandardScaler.transform`: subtract the fitted mean and divide by the
fitted scale, column by column (read-only on the fitted parameters). -/
def StandardScaler.transform (sc : StandardScaler) (X : DF) : DF :=
  sc.params.foldl (fun df p =>
    match df.getCol? p.1 with
    | none => df
    | some col =>
        df.setCol p.1 (col.map (fun v => Val.div (Val.sub v (.num p.2.1)) (.num p.2.2)))) X

/-- Every intermediate value of one notebook run, named after the notebook's
variables. -/
structure PipelineRun where
  train_fe : DF
  encoders : Encoders
  test_fe : DF
  test_encoders : Encoders
  X : DF
  y : List ℚ
  X_test_submission : DF
  X_smote : DF
  y_smote : List ℚ
  X_train : DF
  X_val : DF
  y_train : List ℚ
  y_val : List ℚ
  scaler : StandardScaler
  X_train_scaled : DF
  X_val_scaled : DF
  X_test_scaled : DF
deriving DecidableEq

/-- The notebook pipeline from the two loaded tables up to the scaled feature
matrices, in cell order:

  train, encoders = feature_engineering(train, fit_encoders = True)
  test, _         = feature_engineering(test, encoders, fit_encoders = False)
  X = train.drop([is_fraud, trans_num, id]);  y = train[is_fraud]
  X_test_submission = test.drop([trans_num, id])
  X_smote, y_smote = SMOTE(42).fit_resample(X, y)
  X_train, X_val, y_train, y_val = train_test_split(X_smote, y_smote, 0.2, 42)
  scaler fitted on X_train[numeric_features] with fit_transform, then applied
  with transform (never refitted) to X_val and X_test_submission.

`nowYear` is the wall-clock year read by the age feature; `picks` abstracts
the seeded randomness of the oversampler. -/
def pipeline (train test : DF) (nowYear : ℤ) (picks : ℕ → SmoteChoice) :
    Except PyErr PipelineRun := do
  let (train1, encoders) ← feature_engineering train none true nowYear
  let (test1, test_encoders) ← feature_engineering test (some encoders) false nowYear
  let X ← train1.drop ["is_fraud", "trans_num", "id"]
  let yv ← train1.getCol "is_fraud"
  let y := yv.map Val.toQ
  let Xts ← test1.drop ["trans_num", "id"]
  let (Xs, ys) := smote_fit_resample X y picks
  let (Xtr, Xva, ytr, yva) := train_test_split Xs ys
  let scaler := fitStandardScaler Xtr numeric_features
  .ok ⟨train1, encoders, test1, test_encoders, X, y, Xts, Xs, ys, Xtr, Xva, ytr, yva,
       scaler, scaler.transform Xtr, scaler.transform Xva, scaler.transform Xts⟩

/-- The empty frame. -/
def emptyDF : DF := ⟨[]⟩

/-- Placeholder run used to read a `PipelineRun` out of an `Except`. -/
def emptyRun : PipelineRun :=
  ⟨emptyDF, ⟨⟨[]⟩⟩, emptyDF, ⟨⟨[]⟩⟩, emptyDF, [], emptyDF, emptyDF, [], emptyDF,
   emptyDF, [], [], ⟨[]⟩, emptyDF, emptyDF, emptyDF⟩

/-- The run held in a successful pipeline result (`emptyRun` on error). -/
def runOf (e : Except PyErr PipelineRun) : PipelineRun :=
  match e with
  | .ok r => r
  | .error _ => emptyRun

/-- The submission cell of the notebook:

  y_test_pred = model.predict(X_test_submission)
  test[is_fraud] = y_test_pred
  submission = test[[id, is_fraud]]

`predict` abstracts the trained classifier (one label per feature row); the
written CSV holds exactly the `submission` frame, row order preserved. -/
def makeSubmission (test X_test : DF) (predict : List Val → ℚ) : Except PyErr DF :=
  let y_test_pred := X_test.rows.map predict
  let test2 := test.setCol "is_fraud" (y_test_pred.map Val.num)
  test2.select ["id", "is_fraud"]

/-- Shorthand for string cells of the concrete tables below. -/
def vS (s : String) : Val := .str s

/-- Shorthand for numeric cells of the concrete tables below. -/
def vN (q : ℚ) : Val := .num q

/-- A tiny concrete train table with the schema the notebook loads from
`train.csv` (the columns the pipeline touches), used to instantiate the
theorems on a closed input. -/
def trainTable : DF := ⟨[
  ("id", [vN 0, vN 1]),
  ("trans_num", [vS "t0", vS "t1"]),
  ("trans_date", [vS "2024-03-01", vS "2024-03-02"]),
  ("trans_time", [vS "12:30:00", vS "08:15:00"]),
  ("cc_num", [vN 100, vN 200]),
  ("amt", [vN 10, vN 20]),
  ("first", [vS "ann", vS "bob"]),
  ("last", [vS "lee", vS "kim"]),
  ("street", [vS "s1", vS "s2"]),
  ("city", [vS "Springfield", vS "Shelby"]),
  ("state", [vS "CA", vS "NY"]),
  ("lat", [vN 1, vN 2]),
  ("long", [vN 1, vN 2]),
  ("city_pop", [vN 99, vN 199]),
  ("job", [vS "engineer", vS "doctor"]),
  ("dob", [vS "1990-01-02", vS "1980-05-06"]),
  ("merchant", [vS "m1", vS "m2"]),
  ("category", [vS "food", vS "travel"]),
  ("gender", [vS "F", vS "M"]),
  ("unix_time", [vN 1000, vN 2000]),
  ("merch_lat", [vN 1, vN 2]),
  ("merch_long", [vN 1, vN 2]),
  ("is_fraud", [vN 0, vN 1])
]⟩

/-- A matching one-row test table (no `is_fraud` column); its `category` value
does not occur in `trainTable`. -/
def testTable : DF := ⟨[
  ("id", [vN 7]),
  ("trans_num", [vS "t7"]),
  ("trans_date", [vS "2024-04-05"]),
  ("trans_time", [vS "09:00:00"]),
  ("cc_num", [vN 100]),
  ("amt", [vN 5]),
  ("first", [vS "cyd"]),
  ("last", [vS "poe"]),
  ("street", [vS "s7"]),
  ("city", [vS "Springfield"]),
  ("state", [vS "CA"]),
  ("lat", [vN 3]),
  ("long", [vN 3]),
  ("city_pop", [vN 49]),
  ("job", [vS "engineer"]),
  ("dob", [vS "2000-07-08"]),
  ("merchant", [vS "m1"]),
  ("category", [vS "gas"]),
  ("gender", [vS "F"]),
  ("unix_time", [vN 3000]),
  ("merch_lat", [vN 3]),
  ("merch_long", [vN 3])
]⟩

/-- A fixed choice stream for the oversampler (any stream works for the
balance property). -/
def picksZero : ℕ → SmoteChoice := fun _ => ⟨0, 0, 0⟩

/-- A table missing the `trans_time` column (first column `feature_engineering`
reads). -/
def tableNoTransTime : DF := ⟨[("amt", [vN 1])]⟩

/-- A table missing the `category` column, handed to the apply-mode encoding
step. -/
def tableNoCategory : DF := ⟨[("gender", [vS "F"])]⟩


/-- The column labels `feature_engineering` assigns (none of them is one of the
encoded categorical labels `cat_cols`). -/
def derived_cols : List String :=
  ["hour", "day_of_week", "age", "distance", "amt_per_capita", "trans_count", "amt_ratio"]

/-- The frame/encoders pair held in a successful `feature_engineering` result
(empty on error). -/
def feResultD (e : Except PyErr (DF × Encoders)) : DF × Encoders :=
  match e with
  | .ok p => p
  | .error _ => (emptyDF, ⟨⟨[]⟩⟩)

/-! Helper lemmas about the DataFrame model. -/

theorem lookupCol_setColAux (c c' : String) (vs : List Val)
    (ps : List (String × List Val)) :
    lookupCol (setColAux c vs ps) c' = if c' = c then some vs else lookupCol ps c' := by
  induction ps with
  | nil =>
      by_cases h : c' = c
      · subst h; simp [setColAux, lookupCol]
      · have h2 : ¬ c = c' := fun hc => h hc.symm
        simp [setColAux, lookupCol, h, h2]
  | cons p ps ih =>
      by_cases hp : p.1 = c
      · subst hp
        by_cases h : c' = p.1
        · subst h; simp [setColAux, lookupCol]
        · have h2 : ¬ p.1 = c' := fun hc => h hc.symm
          simp [setColAux, lookupCol, h, h2]
      · by_cases h : p.1 = c'
        · have h3 : ¬ c' = c := fun hc => hp (h.trans hc)
          simp [setColAux, lookupCol, hp, h, h3]
        · simp [setColAux, lookupCol, hp, h, ih]

theorem getCol?_setCol (df : DF) (c c' : String) (vs : List Val) :
    (df.setCol c vs).getCol? c' = if c' = c then some vs else df.getCol? c' :=
  lookupCol_setColAux c c' vs df.cols

theorem lookupCol_mem {ps : List (String × List Val)} {c : String} {vs : List Val}
    (h : lookupCol ps c = some vs) : (c, vs) ∈ ps := by
  induction ps with
  | nil => simp [lookupCol] at h
  | cons p ps ih =>
      by_cases hp : p.1 = c
      · simp [lookupCol, hp] at h
        have hpv : p = (c, vs) := by
          cases p; simp at hp h ⊢; exact ⟨hp, h⟩
        rw [← hpv]; exact List.mem_cons_self _ _
      · simp [lookupCol, hp] at h
        exact List.mem_cons_of_mem _ (ih h)

theorem names_contains_eq_isSome (df : DF) (c : String) :
    df.names.contains c = (df.getCol? c).isSome := by
  show (df.cols.map Prod.fst).contains c = (lookupCol df.cols c).isSome
  induction df.cols with
  | nil => simp [lookupCol]
  | cons p ps ih =>
      by_cases hp : p.1 = c
      · simp [lookupCol, List.contains_cons, hp]
      · have h2 : (c == p.1) = false := beq_eq_false_iff_ne.mpr (fun hc => hp hc.symm)
        simpa [lookupCol, List.contains_cons, hp, h2] using ih

theorem getD_map_range {α : Type} (f : ℕ → α) {j n : ℕ} (h : j < n) (d : α) :
    ((List.range n).map f).getD j d = f j := by
  simp [List.getD_eq_getElem?_getD, List.getElem?_map, List.getElem?_range h]

theorem getD_map_lt {α β : Type} (f : α → β) {l : List α} {j : ℕ} (h : j < l.length)
    (d : β) (d' : α) :
    (l.map f).getD j d = f (l.getD j d') := by
  simp [List.getD_eq_getElem?_getD, List.getElem?_map, List.getElem?_eq_getElem h]

theorem getD_zipWith_lt {α β γ : Type} (f : α → β → γ) {l1 : List α} {l2 : List β}
    {j : ℕ} (h1 : j < l1.length) (h2 : j < l2.length) (d : γ) (d1 : α) (d2 : β) :
    (List.zipWith f l1 l2).getD j d = f (l1.getD j d1) (l2.getD j d2) := by
  simp [List.getD_eq_getElem?_getD, List.getElem?_zipWith,
    List.getElem?_eq_getElem h1, List.getElem?_eq_getElem h2]

theorem getD_lt_mem {l : List Val} {j : ℕ} (h : j < l.length) (d : Val) :
    l.getD j d ∈ l := by
  rw [List.getD_eq_getElem?_getD, List.getElem?_eq_getElem h]
  exact List.getElem_mem h

theorem rollingWindow_eq_cons (ccs : List Val) (j : ℕ) :
    ∃ rest, rollingWindow ccs j = j :: rest ∧ rest.length ≤ 2 := by
  unfold rollingWindow
  rw [List.range_succ, List.filter_append]
  have h1 : List.filter (fun i => decide (ccs.getD i .nan = ccs.getD j .nan)) [j] = [j] := by
    simp
  rw [h1, List.reverse_append]
  refine ⟨_, rfl, ?_⟩
  rw [List.length_take]
  exact le_trans (min_le_left _ _) (by norm_num)

theorem idxOfVal?_eq_none {v : Val} {l : List Val} (h : ¬ v ∈ l) :
    idxOfVal? v l = none := by
  induction l with
  | nil => rfl
  | cons w ws ih =>
      simp only [List.mem_cons, not_or] at h
      have hw : ¬ w = v := fun hc => h.1 hc.symm
      simp [idxOfVal?, hw, ih h.2]

theorem mem_fitCats {v : Val} {l : List Val} : v ∈ fitCats l ↔ v ∈ l := by
  unfold fitCats
  rw [List.mem_insertionSort, List.mem_dedup]

/-- C4: a categorical value appearing in a test column that never occurred in
the training column the encoder was fitted on encodes to the sentinel code -1
(the `unknown_value` of the `OrdinalEncoder` constructed with
`handle_unknown = use_encoded_value`) instead of raising an error.  `colsTr`
and `colsTe` are the data of the six encoded columns (`cat_cols`) of the train
and test tables, `j` the column position and `k` the test row. -/
theorem unseen_category_encodes_to_sentinel (colsTr colsTe : List (List Val))
    (j k : ℕ) (hj : j < colsTr.length) (hjte : j < colsTe.length)
    (hk : k < (colsTe.getD j []).length)
    (hv : ¬ (colsTe.getD j []).getD k Val.nan ∈ colsTr.getD j []) :
    ((applyOrdinal (fitOrdinal colsTr) colsTe).getD j []).getD k Val.nan
      = Val.num (-1) := by
  have hmap : j < (colsTr.map fitCats).length := by simpa using hj
  have h1 : (applyOrdinal (fitOrdinal colsTr) colsTe).getD j []
      = (colsTe.getD j []).map (encodeVal (fitCats (colsTr.getD j []))) := by
    unfold applyOrdinal fitOrdinal
    rw [getD_zipWith_lt _ hmap hjte [] (fitCats []) []]
    rw [getD_map_lt fitCats hj (fitCats []) []]
  rw [h1, getD_map_lt _ hk Val.nan Val.nan]
  unfold encodeVal
  rw [idxOfVal?_eq_none (fun hm => hv (mem_fitCats.mp hm))]

/-- Witness for C4 at a concrete input: the test value `gas` was not among the
fitted categories `food`, `travel`, so it encodes to -1. -/
theorem unseen_category_encodes_to_sentinel_witness :
    ((applyOrdinal (fitOrdinal [[vS "food", vS "travel"]]) [[vS "gas"]]).getD 0 []).getD 0 Val.nan
      = Val.num (-1) :=
  unseen_category_encodes_to_sentinel [[vS "food", vS "travel"]] [[vS "gas"]] 0 0
    (by decide) (by decide) (by decide) (by decide)

/-- C5: every cell of the `trans_count` column is `num c` for some count
`1 ≤ c ≤ 3`: the trailing window of `rolling(window := 3)` inside
`groupby(cc_num)` always contains the row itself and at most two earlier rows
of the same cardholder, and the counted `unix_time` cells are non-null.
(`transCountCol ccs uts` is the column `feature_engineering` assigns, cf.
`addDerived`; `ccs`, `uts` are the `cc_num` and `unix_time` columns.) -/
theorem trans_count_between_one_and_three (ccs uts : List Val) (j : ℕ)
    (hj : j < uts.length) (hnn : ∀ v ∈ uts, v ≠ Val.nan) :
    ∃ c : ℕ, (transCountCol ccs uts).getD j Val.nan = Val.num (c : ℚ)
      ∧ 1 ≤ c ∧ c ≤ 3 := by
  obtain ⟨rest, hw, hr⟩ := rollingWindow_eq_cons ccs j
  have hpred : (fun i => !(decide (uts.getD i Val.nan = Val.nan))) j = true := by
    have hne := hnn _ (getD_lt_mem hj Val.nan)
    rw [List.getD_eq_getElem?_getD] at hne
    simp [hne]
  refine ⟨(rollingWindow ccs j).countP (fun i => !(decide (uts.getD i Val.nan = Val.nan))),
    ?_, ?_, ?_⟩
  · unfold transCountCol
    rw [getD_map_range (fun j => Val.num ((rollingWindow ccs j).countP
      (fun i => !(decide (uts.getD i Val.nan = Val.nan))) : ℚ)) hj Val.nan]
  · rw [hw, List.countP_cons_of_pos
      (fun i => !(decide (uts.getD i Val.nan = Val.nan))) rest hpred]
    exact Nat.le_add_left 1 _
  · have h1 : (rollingWindow ccs j).countP
        (fun i => !(decide (uts.getD i Val.nan = Val.nan))) ≤ (rollingWindow ccs j).length :=
      List.countP_le_length _
    have h2 : (rollingWindow ccs j).length = rest.length + 1 := by
      rw [hw]; simp
    omega

/-- Witness for C5 at a concrete input: the second transaction of cardholder 1
has a window count between 1 and 3. -/
theorem trans_count_between_one_and_three_witness :
    ∃ c : ℕ, (transCountCol [vN 1, vN 1] [vN 5, vN 6]).getD 1 Val.nan = Val.num (c : ℚ)
      ∧ 1 ≤ c ∧ c ≤ 3 :=
  trans_count_between_one_and_three [vN 1, vN 1] [vN 5, vN 6] 1 (by decide) (by decide)

/-- C6: each `amt_per_capita` cell equals the transaction amount divided by
(city population + 1); with a non-negative population the divisor is at least
1, so the cell is a finite number, non-negative whenever the amount is. -/
theorem amt_per_capita_finite_nonneg (amts cps : List Val) (j : ℕ) (a p : ℚ)
    (hja : j < amts.length) (hjp : j < cps.length)
    (ha : amts.getD j Val.nan = Val.num a) (hp : cps.getD j Val.nan = Val.num p)
    (hpop : 0 ≤ p) :
    (amtPerCapitaCol amts cps).getD j Val.nan = Val.num (a / (p + 1))
      ∧ ((amtPerCapitaCol amts cps).getD j Val.nan).isFinite = true
      ∧ (0 ≤ a → 0 ≤ a / (p + 1)) := by
  have hne : ¬ (p + 1 = 0) := by positivity
  have h1 : (amtPerCapitaCol amts cps).getD j Val.nan = Val.num (a / (p + 1)) := by
    unfold amtPerCapitaCol
    rw [getD_zipWith_lt _ hja hjp Val.nan Val.nan Val.nan, ha, hp]
    simp [Val.add, Val.div, hne]
  refine ⟨h1, ?_, ?_⟩
  · rw [h1]; rfl
  · intro haa
    exact div_nonneg haa (by positivity)

/-- Witness for C6 at a concrete input: amount 10 in a city of population 99
gives `amt_per_capita` 1/10, finite and non-negative. -/
theorem amt_per_capita_finite_nonneg_witness :
    (amtPerCapitaCol [vN 10] [vN 99]).getD 0 Val.nan = Val.num ((10 : ℚ) / (99 + 1))
      ∧ ((amtPerCapitaCol [vN 10] [vN 99]).getD 0 Val.nan).isFinite = true
      ∧ ((0 : ℚ) ≤ 10 → (0 : ℚ) ≤ 10 / (99 + 1)) :=
  amt_per_capita_finite_nonneg [vN 10] [vN 99] 0 10 99 (by decide) (by decide)
    (by decide) (by decide) (by norm_num)

/-- C10: the division defining `amt_ratio` is unguarded — when a cardholder's
group mean amount is zero, the cell `amt / mean` is a non-finite value
(NaN or ±inf) and no error is raised (the function is total); when the group
mean is a nonzero number `m` and the amount a number `a`, the cell is the
finite number `a / m`. -/
theorem amt_ratio_nonfinite_on_zero_mean (ccs amts : List Val) (j : ℕ)
    (hj : j < amts.length) :
    (groupMeanAt ccs amts j = Val.num 0 →
      ((amtRatioCol ccs amts).getD j Val.nan).isFinite = false)
    ∧ (∀ m a : ℚ, groupMeanAt ccs amts j = Val.num m → ¬ m = 0 →
        amts.getD j Val.nan = Val.num a →
        (amtRatioCol ccs amts).getD j Val.nan = Val.num (a / m)) := by
  have hval : (amtRatioCol ccs amts).getD j Val.nan
      = Val.div (amts.getD j Val.nan) (groupMeanAt ccs amts j) := by
    unfold amtRatioCol
    rw [getD_map_range (fun j => Val.div (amts.getD j Val.nan) (groupMeanAt ccs amts j))
      hj Val.nan]
  constructor
  · intro hmean
    rw [hval, hmean]
    cases amts.getD j Val.nan with
    | num a => simp only [Val.div]; split_ifs <;> rfl
    | str s => rfl
    | nan => rfl
    | inf => simp only [Val.div]; split_ifs <;> rfl
    | ninf => simp only [Val.div]; split_ifs <;> rfl
  · intro m a hm hm0 ha
    rw [hval, hm, ha]
    simp [Val.div, hm0]

/-- Witness for C10 at a concrete input: cardholder 7 has a single transaction
of amount 0, so its group mean is 0 and `amt_ratio` is non-finite. -/
theorem amt_ratio_nonfinite_on_zero_mean_witness :
    ((amtRatioCol [vN 7] [vN 0]).getD 0 Val.nan).isFinite = false :=
  (amt_ratio_nonfinite_on_zero_mean [vN 7] [vN 0] 0 (by decide)).1
    (by with_unfolding_all rfl)

theorem countLabel_exists_index {y : List ℚ} {q : ℚ} (h : 0 < countLabel y q) :
    ∃ i, i < y.length ∧ y.getD i 0 = q := by
  unfold countLabel at h
  obtain ⟨a, ha, hq⟩ := List.countP_pos_iff.mp h
  obtain ⟨i, hi, hv⟩ := List.getElem_of_mem ha
  refine ⟨i, hi, ?_⟩
  rw [List.getD_eq_getElem?_getD, List.getElem?_eq_getElem hi]
  simp only [Option.getD_some]
  rw [hv]
  exact of_decide_eq_true hq

/-- C2: for a feature table and binary label column of equal row count whose
minority class is large enough for the oversampler (at least
k_neighbors + 1 = 6 members), the class-balancing step returns a table/label
pair with exactly as many positive-labelled rows as negative-labelled rows
(and one cell per label row in every feature column). -/
theorem smote_equalizes_classes (X : DF) (y : List ℚ) (picks : ℕ → SmoteChoice)
    (hbin : ∀ v ∈ y, v = 0 ∨ v = 1)
    (hmin : 6 ≤ min (countLabel y 1) (countLabel y 0))
    (hlen : ∀ p ∈ X.cols, p.2.length = y.length) :
    countLabel (smote_fit_resample X y picks).2 1
      = countLabel (smote_fit_resample X y picks).2 0
    ∧ ∀ p ∈ (smote_fit_resample X y picks).1.cols,
        p.2.length = (smote_fit_resample X y picks).2.length := by
  have hpos : 0 < countLabel y (if countLabel y 1 < countLabel y 0 then (1 : ℚ) else 0) := by
    by_cases h : countLabel y 1 < countLabel y 0 <;> simp [h] <;> omega
  obtain ⟨i, hi, hiv⟩ := countLabel_exists_index hpos
  have hmem : i ∈ (List.range y.length).filter
      (fun i => decide (y.getD i 0 = if countLabel y 1 < countLabel y 0 then (1 : ℚ) else 0)) := by
    rw [List.mem_filter]
    exact ⟨List.mem_range.mpr hi, decide_eq_true hiv⟩
  rcases hM : (List.range y.length).filter
      (fun i => decide (y.getD i 0 = if countLabel y 1 < countLabel y 0 then (1 : ℚ) else 0))
    with _ | ⟨i0, rest⟩
  · rw [hM] at hmem; exact absurd hmem (List.not_mem_nil i)
  · simp only [smote_fit_resample]
    rw [hM]
    simp only []
    constructor
    · by_cases h : countLabel y 1 < countLabel y 0
      · rw [if_pos h]
        have hmax := max_eq_right (le_of_lt h)
        have hmin2 := min_eq_left (le_of_lt h)
        rw [hmax, hmin2]
        have e1 : countLabel (y ++ List.replicate (countLabel y 0 - countLabel y 1) (1 : ℚ)) 1
            = countLabel y 1 + (countLabel y 0 - countLabel y 1) := by
          unfold countLabel
          rw [List.countP_append, List.countP_replicate]
          norm_num
        have e0 : countLabel (y ++ List.replicate (countLabel y 0 - countLabel y 1) (1 : ℚ)) 0
            = countLabel y 0 := by
          unfold countLabel
          rw [List.countP_append, List.countP_replicate]
          norm_num
        rw [e1, e0]
        omega
      · rw [if_neg h]
        have hle : countLabel y 0 ≤ countLabel y 1 := le_of_not_lt h
        have hmax := max_eq_left hle
        have hmin2 := min_eq_right hle
        rw [hmax, hmin2]
        have e1 : countLabel (y ++ List.replicate (countLabel y 1 - countLabel y 0) (0 : ℚ)) 1
            = countLabel y 1 := by
          unfold countLabel
          rw [List.countP_append, List.countP_replicate]
          norm_num
        have e0 : countLabel (y ++ List.replicate (countLabel y 1 - countLabel y 0) (0 : ℚ)) 0
            = countLabel y 0 + (countLabel y 1 - countLabel y 0) := by
          unfold countLabel
          rw [List.countP_append, List.countP_replicate]
          norm_num
        rw [e1, e0]
        omega
    · intro p hp
      simp only [List.mem_map] at hp
      obtain ⟨q, hq, hpq⟩ := hp
      rw [← hpq]
      simp [hlen q hq]


/-- Witness for C2 at a concrete input: 6 positive and 8 negative labels over a
one-column table; after resampling both classes have equal support. -/
theorem smote_equalizes_classes_witness :
    countLabel (smote_fit_resample (DF.mk [("amt", List.replicate 14 (vN 2))])
      [1, 1, 1, 1, 1, 1, 0, 0, 0, 0, 0, 0, 0, 0] picksZero).2 1
      = countLabel (smote_fit_resample (DF.mk [("amt", List.replicate 14 (vN 2))])
      [1, 1, 1, 1, 1, 1, 0, 0, 0, 0, 0, 0, 0, 0] picksZero).2 0
    ∧ ∀ p ∈ (smote_fit_resample (DF.mk [("amt", List.replicate 14 (vN 2))])
      [1, 1, 1, 1, 1, 1, 0, 0, 0, 0, 0, 0, 0, 0] picksZero).1.cols,
        p.2.length = (smote_fit_resample (DF.mk [("amt", List.replicate 14 (vN 2))])
      [1, 1, 1, 1, 1, 1, 0, 0, 0, 0, 0, 0, 0, 0] picksZero).2.length :=
  smote_equalizes_classes (DF.mk [("amt", List.replicate 14 (vN 2))])
    [1, 1, 1, 1, 1, 1, 0, 0, 0, 0, 0, 0, 0, 0] picksZero
    (by decide) (by decide) (by decide)

/-- C3: for a test table with N rows (and an `id` column), the submission cell
produces a frame with exactly two columns `id` and `is_fraud`, exactly N rows,
whose `id` column is the test table's `id` column unchanged (hence the k-th
output identifier equals the k-th input identifier for every k); `X_test` is
the feature matrix the classifier predicts from, one prediction per row. -/
theorem submission_matches_test_rows (test X_test : DF) (predict : List Val → ℚ)
    (ids : List Val) (N : ℕ)
    (hid : test.getCol? "id" = some ids)
    (hcols : ∀ p ∈ test.cols, p.2.length = N)
    (hX : X_test.nrows = N) :
    ∃ sub, makeSubmission test X_test predict = .ok sub
      ∧ sub.names = ["id", "is_fraud"]
      ∧ sub.getCol? "id" = some ids
      ∧ sub.nrows = N
      ∧ ∀ p ∈ sub.cols, p.2.length = N := by
  have hplen : ((X_test.rows.map predict).map Val.num).length = N := by
    simp [DF.rows, hX]
  have hid2 : (test.setCol "is_fraud" ((X_test.rows.map predict).map Val.num)).getCol? "id"
      = some ids := by
    rw [getCol?_setCol, if_neg (by decide), hid]
  have hf2 : (test.setCol "is_fraud" ((X_test.rows.map predict).map Val.num)).getCol? "is_fraud"
      = some ((X_test.rows.map predict).map Val.num) := by
    rw [getCol?_setCol, if_pos rfl]
  have hc1 : ((test.setCol "is_fraud" ((X_test.rows.map predict).map Val.num)).names.contains "id")
      = true := by
    rw [names_contains_eq_isSome, hid2]; rfl
  have hc2 : ((test.setCol "is_fraud" ((X_test.rows.map predict).map Val.num)).names.contains "is_fraud")
      = true := by
    rw [names_contains_eq_isSome, hf2]; rfl
  have hp1 : (fun c => !((test.setCol "is_fraud"
      ((X_test.rows.map predict).map Val.num)).names.contains c)) "id" = false := by
    show (!((test.setCol "is_fraud"
      ((X_test.rows.map predict).map Val.num)).names.contains "id")) = false
    rw [hc1]; rfl
  have hp2 : (fun c => !((test.setCol "is_fraud"
      ((X_test.rows.map predict).map Val.num)).names.contains c)) "is_fraud" = false := by
    show (!((test.setCol "is_fraud"
      ((X_test.rows.map predict).map Val.num)).names.contains "is_fraud")) = false
    rw [hc2]; rfl
  have hfind : List.find? (fun c => !((test.setCol "is_fraud"
      ((X_test.rows.map predict).map Val.num)).names.contains c)) ["id", "is_fraud"]
      = none := by
    simp only [List.find?_cons, hp1, hp2, List.find?_nil]
  have hsel : makeSubmission test X_test predict
      = .ok ⟨[("id", ids), ("is_fraud", (X_test.rows.map predict).map Val.num)]⟩ := by
    simp only [makeSubmission, DF.select]
    rw [hfind]
    simp only [List.map_cons, List.map_nil, hid2, hf2, Option.getD_some]
  refine ⟨_, hsel, rfl, ?_, ?_, ?_⟩
  · simp [DF.getCol?, lookupCol]
  · have hidlen : ids.length = N := hcols _ (lookupCol_mem hid)
    simpa [DF.nrows] using hidlen
  · intro p hp
    have hidlen : ids.length = N := hcols _ (lookupCol_mem hid)
    simp only [List.mem_cons, List.not_mem_nil, or_false, List.mem_singleton] at hp
    rcases hp with rfl | rfl
    · exact hidlen
    · exact hplen


/-- Witness for C3 at a concrete input: a one-row test table keeps its
identifier and gains exactly one prediction column. -/
theorem submission_matches_test_rows_witness :
    ∃ sub, makeSubmission (DF.mk [("id", [vN 7]), ("amt", [vN 1])])
        (DF.mk [("f", [vN 3])]) (fun _ => 1) = .ok sub
      ∧ sub.names = ["id", "is_fraud"]
      ∧ sub.getCol? "id" = some [vN 7]
      ∧ sub.nrows = 1
      ∧ ∀ p ∈ sub.cols, p.2.length = 1 :=
  submission_matches_test_rows (DF.mk [("id", [vN 7]), ("amt", [vN 1])])
    (DF.mk [("f", [vN 3])]) (fun _ => 1) [vN 7] 1 (by decide) (by decide) (by decide)

/-- Counterexample to C7 as stated: two runs of the pipeline on the identical
input tables, with the identical fixed seed and identical library code, but at
wall-clock years 2025 and 2026, produce different outputs — the `age` feature
is computed from `pd.Timestamp('now').year`, a hidden input the claim omits. -/
theorem pipeline_differs_across_years :
    pipeline trainTable testTable 2025 picksZero
      ≠ pipeline trainTable testTable 2026 picksZero := by
  have hA : ((runOf (pipeline trainTable testTable 2025 picksZero)).train_fe.getCol?
      "age").getD [] = [vN 35, vN 45] := by with_unfolding_all rfl
  have hB : ((runOf (pipeline trainTable testTable 2026 picksZero)).train_fe.getCol?
      "age").getD [] = [vN 36, vN 46] := by with_unfolding_all rfl
  intro h
  rw [h] at hA
  exact absurd (hA.symm.trans hB) (by decide)

/-- C7 (amended): the pipeline is deterministic given the input tables, the
seeded random choices, the library code (fixed in this embedding), AND the
wall-clock year read by the age feature: two runs agreeing on all of these
produce identical outputs. -/
theorem pipeline_deterministic (train1 train2 test1 test2 : DF) (y1 y2 : ℤ)
    (p1 p2 : ℕ → SmoteChoice)
    (htr : train1 = train2) (hte : test1 = test2) (hy : y1 = y2)
    (hp : ∀ k, p1 k = p2 k) :
    pipeline train1 test1 y1 p1 = pipeline train2 test2 y2 p2 := by
  subst htr; subst hte; subst hy
  rw [funext hp]

/-- Witness for C7 (amended) at a concrete input. -/
theorem pipeline_deterministic_witness :
    pipeline trainTable testTable 2025 picksZero
      = pipeline trainTable testTable 2025 picksZero :=
  pipeline_deterministic trainTable trainTable testTable testTable 2025 2025
    picksZero picksZero rfl rfl rfl (fun _ => rfl)

/-- Counterexample to C8 as stated: the caller's input table is NOT left
unchanged — after `feature_engineering(train, fit_encoders = True)` the
caller's object has (among other changes) a new `hour` column, because the
function assigns columns on its argument and drops with `inplace = True`. -/
theorem feature_engineering_mutates_input :
    dfAfterCall trainTable none true 2025 ≠ trainTable := by
  have hA : (dfAfterCall trainTable none true 2025).names.contains "hour" = true := by
    with_unfolding_all rfl
  intro h
  rw [h] at hA
  exact absurd hA (by decide)

/-- C8 (amended): the only side effect of `feature_engineering` beyond its
return value is the in-place mutation of the caller's table, which afterwards
holds exactly the returned frame (the returned frame is the same object); the
fitting call additionally returns the fitted encoder. -/
theorem feature_engineering_inplace_alias (df : DF) (encoders : Option Encoders)
    (fit_encoders : Bool) (yr : ℤ) (out : DF × Encoders)
    (h : feature_engineering df encoders fit_encoders yr = .ok out) :
    dfAfterCall df encoders fit_encoders yr = out.1 := by
  unfold dfAfterCall
  rw [h]

/-- Witness for C8 (amended) at a concrete input. -/
theorem feature_engineering_inplace_alias_witness :
    dfAfterCall trainTable none true 2025
      = (feResultD (feature_engineering trainTable none true 2025)).1 :=
  feature_engineering_inplace_alias trainTable none true 2025
    (feResultD (feature_engineering trainTable none true 2025))
    (by with_unfolding_all rfl)

theorem except_bind_ok {ε α β : Type} {e : Except ε α} {f : α → Except ε β} {b : β}
    (h : e >>= f = .ok b) : ∃ a, e = .ok a ∧ f a = .ok b := by
  cases e with
  | error e => simp [Bind.bind, Except.bind] at h
  | ok a => exact ⟨a, rfl, by simpa [Bind.bind, Except.bind] using h⟩

theorem addDerived_preserves_other_cols {df : DF} {yr : ℤ} {d1 : DF}
    (h : addDerived df yr = .ok d1) (c : String) (hc : ¬ c ∈ derived_cols) :
    d1.getCol? c = df.getCol? c := by
  simp only [derived_cols, List.mem_cons, List.not_mem_nil, or_false] at hc
  push_neg at hc
  obtain ⟨hc1, hc2, hc3, hc4, hc5, hc6, hc7⟩ := hc
  unfold addDerived at h
  obtain ⟨tt, h1, h⟩ := except_bind_ok h
  obtain ⟨hourCol, h2, h⟩ := except_bind_ok h
  obtain ⟨td, h3, h⟩ := except_bind_ok h
  obtain ⟨dowCol, h4, h⟩ := except_bind_ok h
  obtain ⟨db, h5, h⟩ := except_bind_ok h
  obtain ⟨ageCol, h6, h⟩ := except_bind_ok h
  obtain ⟨lats, h7, h⟩ := except_bind_ok h
  obtain ⟨mlats, h8, h⟩ := except_bind_ok h
  obtain ⟨lons, h9, h⟩ := except_bind_ok h
  obtain ⟨mlons, h10, h⟩ := except_bind_ok h
  obtain ⟨amts, h11, h⟩ := except_bind_ok h
  obtain ⟨cps, h12, h⟩ := except_bind_ok h
  obtain ⟨ccs, h13, h⟩ := except_bind_ok h
  obtain ⟨uts, h14, h⟩ := except_bind_ok h
  obtain ⟨amts2, h15, h⟩ := except_bind_ok h
  obtain ⟨ccs2, h16, h⟩ := except_bind_ok h
  have hd1 := (Except.ok.inj h).symm
  rw [hd1]
  simp only [getCol?_setCol, if_neg hc7, if_neg hc6, if_neg hc5, if_neg hc4,
    if_neg hc3, if_neg hc2, if_neg hc1]

theorem cat_cols_not_derived : ∀ c ∈ cat_cols, ¬ c ∈ derived_cols := by
  intro c hcm
  simp only [cat_cols, List.mem_cons, List.not_mem_nil, or_false] at hcm
  rcases hcm with rfl | rfl | rfl | rfl | rfl | rfl <;> decide

theorem fe_fit_encoders_from_raw {df : DF} {yr : ℤ} {d3 : DF} {encs : Encoders}
    (h : feature_engineering df none true yr = .ok (d3, encs)) :
    encs.ordinal_encoder
      = fitOrdinal (cat_cols.map (fun c => (df.getCol? c).getD [])) := by
  unfold feature_engineering at h
  obtain ⟨d1, had, h⟩ := except_bind_ok h
  obtain ⟨⟨d2, encs2⟩, henc, h⟩ := except_bind_ok h
  obtain ⟨d3x, hdrop, h⟩ := except_bind_ok h
  have hencs : encs2 = encs := congrArg Prod.snd (Except.ok.inj h)
  unfold encodeStep at henc
  obtain ⟨sub, hsub, henc⟩ := except_bind_ok henc
  have hencs2 : (⟨fitOrdinal (sub.cols.map Prod.snd)⟩ : Encoders) = encs2 :=
    congrArg Prod.snd (Except.ok.inj henc)
  unfold DF.select at hsub
  split at hsub
  · exact absurd hsub (by simp)
  · have hsubeq : sub = ⟨cat_cols.map (fun c => (c, (d1.getCol? c).getD []))⟩ :=
      (Except.ok.inj hsub).symm
    have hcc : ∀ c ∈ cat_cols, (d1.getCol? c).getD [] = (df.getCol? c).getD [] := by
      intro c hcm
      rw [addDerived_preserves_other_cols had c (cat_cols_not_derived c hcm)]
    rw [← hencs, ← hencs2, hsubeq]
    simp only [List.map_map]
    exact congrArg fitOrdinal (List.map_congr_left hcc)

theorem fe_apply_returns_same_encoders {df : DF} {encs : Encoders} {yr : ℤ}
    {d3 : DF} {encs2 : Encoders}
    (h : feature_engineering df (some encs) false yr = .ok (d3, encs2)) :
    encs2 = encs := by
  unfold feature_engineering at h
  obtain ⟨d1, had, h⟩ := except_bind_ok h
  obtain ⟨⟨d2, e2⟩, henc, h⟩ := except_bind_ok h
  obtain ⟨d3x, hdrop, h⟩ := except_bind_ok h
  have he : e2 = encs2 := congrArg Prod.snd (Except.ok.inj h)
  unfold encodeStep at henc
  obtain ⟨sub, hsub, henc⟩ := except_bind_ok henc
  have he2 : encs = e2 := congrArg Prod.snd (Except.ok.inj henc)
  rw [← he, ← he2]

set_option maxHeartbeats 1000000 in
/-- C1: in every successful pipeline run, the categorical encoding table is
fitted exactly once, on the raw train table's categorical columns
(`out.encoders` equals the encoder fitted from the raw train data), and the
test-side call returns that same encoder object unmodified (never refit); the
scaler is fitted exactly once, on the post-split training subset `X_train`,
and the validation and external-test matrices are transformed with exactly
those frozen parameters. -/
theorem pipeline_fits_once (train test : DF) (yr : ℤ) (picks : ℕ → SmoteChoice)
    (out : PipelineRun) (h : pipeline train test yr picks = .ok out) :
    out.encoders.ordinal_encoder
        = fitOrdinal (cat_cols.map (fun c => (train.getCol? c).getD []))
    ∧ out.test_encoders = out.encoders
    ∧ out.scaler = fitStandardScaler out.X_train numeric_features
    ∧ out.X_val_scaled = out.scaler.transform out.X_val
    ∧ out.X_test_scaled = out.scaler.transform out.X_test_submission := by
  unfold pipeline at h
  obtain ⟨⟨train1, encoders⟩, hfe1, h⟩ := except_bind_ok h
  obtain ⟨⟨test1, tencs⟩, hfe2, h⟩ := except_bind_ok h
  obtain ⟨X, hX, h⟩ := except_bind_ok h
  obtain ⟨yv, hy, h⟩ := except_bind_ok h
  obtain ⟨Xts, hXts, h⟩ := except_bind_ok h
  simp only [] at h
  rcases hsm : smote_fit_resample X (List.map Val.toQ yv) picks with ⟨Xs, ys⟩
  rw [hsm] at h
  rcases hsp : train_test_split Xs ys with ⟨Xtr, Xva, ytr, yva⟩
  rw [hsp] at h
  have hout : out = _ := (Except.ok.inj h).symm
  subst hout
  refine ⟨?_, ?_, ?_, ?_, ?_⟩
  · exact fe_fit_encoders_from_raw hfe1
  · exact fe_apply_returns_same_encoders hfe2
  · with_reducible rfl
  · with_reducible rfl
  · with_reducible rfl

/-- Witness for C1 at a concrete input: the pipeline run on the concrete train
and test tables satisfies all five fit-once/apply-frozen equations. -/
theorem pipeline_fits_once_witness :
    (runOf (pipeline trainTable testTable 2025 picksZero)).encoders.ordinal_encoder
        = fitOrdinal (cat_cols.map (fun c => (trainTable.getCol? c).getD []))
    ∧ (runOf (pipeline trainTable testTable 2025 picksZero)).test_encoders
        = (runOf (pipeline trainTable testTable 2025 picksZero)).encoders
    ∧ (runOf (pipeline trainTable testTable 2025 picksZero)).scaler
        = fitStandardScaler (runOf (pipeline trainTable testTable 2025 picksZero)).X_train
            numeric_features
    ∧ (runOf (pipeline trainTable testTable 2025 picksZero)).X_val_scaled
        = (runOf (pipeline trainTable testTable 2025 picksZero)).scaler.transform
            (runOf (pipeline trainTable testTable 2025 picksZero)).X_val
    ∧ (runOf (pipeline trainTable testTable 2025 picksZero)).X_test_scaled
        = (runOf (pipeline trainTable testTable 2025 picksZero)).scaler.transform
            (runOf (pipeline trainTable testTable 2025 picksZero)).X_test_submission :=
  pipeline_fits_once trainTable testTable 2025 picksZero
    (runOf (pipeline trainTable testTable 2025 picksZero))
    (by with_unfolding_all rfl)

/-- Counterexample to C9 as stated: the code defines no `MissingColumnError`
or `EncodingMismatchError` classes.  At the concrete inputs below the two
claimed failure modes both raise the same Python exception class — the pandas
`KeyError` of a failed column lookup, naming the missing column — so the two
distinct error types the claim names do not exist in the code. -/
theorem feature_engineering_error_class_cex :
    feature_engineering tableNoTransTime none true 2025
        = .error (.keyError "trans_time")
    ∧ encodeStep tableNoCategory (some ⟨⟨[[vS "food"]]⟩⟩) false
        = .error (.keyError "category")
    ∧ PyErr.className (.keyError "trans_time")
        = PyErr.className (.keyError "category") :=
  ⟨by with_unfolding_all rfl, by with_unfolding_all rfl, rfl⟩

/-- C9 (amended): `feature_engineering` fails with a pandas `KeyError` naming
the absent column when an expected raw column is missing (shown here for the
first column it reads, `trans_time`), and the apply-mode encoding step fails
with a pandas `KeyError` naming the first missing categorical column when the
fitted encoder is applied to a table lacking one; the code raises the same
generic `KeyError` class in both situations. -/
theorem feature_engineering_raises_keyerror :
    (∀ (df : DF) (encoders : Option Encoders) (fit : Bool) (yr : ℤ),
      df.getCol? "trans_time" = none →
      feature_engineering df encoders fit yr = .error (.keyError "trans_time"))
    ∧ (∀ (df : DF) (encs : Encoders) (c : String),
      cat_cols.find? (fun c2 => !(df.names.contains c2)) = some c →
      encodeStep df (some encs) false = .error (.keyError c)) := by
  constructor
  · intro df encoders f yr h
    unfold feature_engineering addDerived DF.getCol
    rw [h]
    rfl
  · intro df encs c h
    unfold encodeStep DF.select
    rw [h]
    rfl

/-- Witness for C9 (amended) at concrete inputs: a table without `trans_time`
makes `feature_engineering` raise `KeyError trans_time`; a table without
`category` makes the apply-mode encoding step raise `KeyError category`. -/
theorem feature_engineering_raises_keyerror_witness :
    feature_engineering tableNoTransTime none true 2025
        = .error (.keyError "trans_time")
    ∧ encodeStep tableNoCategory (some ⟨⟨[[vS "food"]]⟩⟩) false
        = .error (.keyError "category") :=
  ⟨feature_engineering_raises_keyerror.1 tableNoTransTime none true 2025
      (by with_unfolding_all rfl),
   feature_engineering_raises_keyerror.2 tableNoCategory ⟨⟨[[vS "food"]]⟩⟩ "category"
      (by with_unfolding_all rfl)⟩
